import Mathlib

/-!
# Shallow embedding of the Sensor_shm shared-memory transport

This file embeds the zero-copy shared-memory manager of the repository
(`src/cpp/common/shm_types.h`, `src/cpp/common/shm_manager.cpp`,
`src/cpp/video/image_shm_manager.cpp`) as pure Lean functions and proves
properties of the buffer-selection, commit, release and validation logic.

Modelling conventions:
* machine integers become `Nat`; wrap-around is written explicitly with
  `% 2 ^ 32` / `% 2 ^ 64` where the C++ code can overflow;
* the shared region is carried inside the `ShmManager` record: `ctrl` is the
  `ShmBufferControl` block (one `BufCtrl` record per buffer) and `data` the
  `NUM_BUFFERS` payload buffers, each a list of bytes;
* a C++ pointer into buffer `i` is represented by the index `i` (returned as
  `Option Nat`, `none` standing for `nullptr`);
* the process-local `state_mutex_` serializes the operations, so the
  sequential semantics below is the semantics of the locked C++ code;
* OS calls (`shm_open`, `ftruncate`, `mmap`, `munmap`) are abstracted by an
  `OsEnv` record that tells which of them succeed.
-/

/-- Number of data buffers, `NUM_BUFFERS` in `shm_types.h`. -/
def NUM_BUFFERS : Nat := 3

/-- `UINT64_MAX`, the initial minimum in the writer scan. -/
def UINT64_MAX : Nat := 2 ^ 64 - 1

/-- Modulus of `uint32_t` cells (`buffer_reader_count`). -/
def U32_MOD : Nat := 2 ^ 32

/-- `sizeof(ShmBufferControl)`: 3 atomic u64 + 3 atomic size_t + 3 atomic
bool (padded to 4-byte alignment of the next array) + 3 atomic u32, with
8-byte struct alignment: 24 + 24 + 4 + 12 = 64 bytes on the LP64 host. -/
def SHM_CONTROL_SIZE : Nat := 64

/-- `ShmStatus` from `shm_types.h`. -/
inductive ShmStatus where
  | Success
  | AlreadyInitialized
  | NotInitialized
  | ShmOpenFailed
  | ShmTruncateFailed
  | ShmMapFailed
  | ShmUnmapFailed
  | ShmUnlinkFailed
  | InvalidArguments
  | BufferTooSmall
  | BufferInUse
  | NoDataAvailable
  | AcquireFailed
deriving DecidableEq

/-- `ShmState` from `shm_types.h`. -/
inductive ShmState where
  | Uninitialized
  | Created
  | Mapped
  | Closed
deriving DecidableEq

/-- The per-buffer slice of `ShmBufferControl`: one cell of each of the four
parallel atomic arrays `frame_version`, `buffer_data_size`, `buffer_ready`,
`buffer_reader_count`. -/
structure BufCtrl where
  frame_version : Nat
  data_size : Nat
  ready : Bool
  reader_count : Nat
deriving DecidableEq

instance : Inhabited BufCtrl := ⟨⟨0, 0, false, 0⟩⟩

/-- `ShmBufferControl::initialize`: every cell zeroed, `ready = false`. -/
def initCtrl : List BufCtrl := List.replicate NUM_BUFFERS default

/-- The manager together with the shared region it maps.  `mapped` models
`shm_ptr_ != nullptr`; `shm_fd` is the file descriptor (`-1` = closed). -/
structure ShmManager where
  state : ShmState
  shm_fd : Int
  mapped : Bool
  is_creator : Bool
  current_shm_size : Nat
  buffer_size : Nat
  ctrl : List BufCtrl
  data : List (List Nat)
deriving DecidableEq

/-- `state_ == Created || state_ == Mapped`, the check that guards every
internal buffer operation. -/
def ShmManager.isInit (m : ShmManager) : Bool :=
  m.state = ShmState.Created || m.state = ShmState.Mapped

/-- Read the control cells of buffer `i` (an atomic load in the source). -/
def ShmManager.buf (m : ShmManager) (i : Nat) : BufCtrl :=
  m.ctrl.getD i default

/-- The writer selection loop of `internal_acquire_write_buffer`: walk the
buffers in index order keeping the first strict improvement of the minimum
version.  `i` is the index of the head of `bufs`, `wi`/`mv` the running
`write_idx`/`min_version`. -/
def scanMin : List BufCtrl → Nat → Nat → Nat → Nat
  | [], _, wi, _ => wi
  | b :: rest, i, wi, mv =>
    if b.frame_version < mv then scanMin rest (i + 1) i b.frame_version
    else scanMin rest (i + 1) wi mv

/-- The reader selection loop of `internal_acquire_read_buffer`: among ready
buffers keep the first strict improvement over `max_version` (initially 0).
Returns `(latest_idx, max_version, found_latest)`. -/
def scanMax : List BufCtrl → Nat → Nat → Nat → Bool → Nat × Nat × Bool
  | [], _, li, mv, f => (li, mv, f)
  | b :: rest, i, li, mv, f =>
    if b.ready && decide (mv < b.frame_version) then
      scanMax rest (i + 1) i b.frame_version true
    else scanMax rest (i + 1) li mv f

/-- `ShmManager::internal_acquire_write_buffer`.  Returns the acquired buffer
index (`none` = `nullptr`) and the updated manager. -/
def internal_acquire_write_buffer (m : ShmManager) (expected_size : Nat) :
    Option Nat × ShmManager :=
  if ¬ m.isInit then (none, m)
  else if m.buffer_size < expected_size then (none, m)
  else if ¬ m.mapped then (none, m)
  else
    let write_idx := scanMin m.ctrl 0 0 UINT64_MAX
    if 0 < (m.buf write_idx).reader_count then (none, m)
    else
      (some write_idx,
       { m with ctrl := m.ctrl.set write_idx ({ m.buf write_idx with ready := false }) })

/-- `ShmManager::internal_release_write_buffer`: after the state and range
checks the body is empty, so the manager is returned unchanged. -/
def internal_release_write_buffer (m : ShmManager) (_buffer_idx : Nat) :
    ShmManager :=
  m

/-- `ShmManager::internal_commit_write_buffer`: store `data_size`,
`frame_version` and `ready := true` for the committed buffer (in that order
in the source; no timestamp cell exists in `ShmBufferControl`). -/
def internal_commit_write_buffer (m : ShmManager) (buffer_idx actual_size
    frame_version : Nat) : ShmStatus × ShmManager :=
  if ¬ m.isInit then (ShmStatus.NotInitialized, m)
  else if ¬ m.mapped then (ShmStatus.InvalidArguments, m)
  else if NUM_BUFFERS ≤ buffer_idx then (ShmStatus.InvalidArguments, m)
  else
    let b := { m.buf buffer_idx with
                 data_size := actual_size
                 frame_version := frame_version
                 ready := true }
    (ShmStatus.Success, { m with ctrl := m.ctrl.set buffer_idx b })

/-- `ShmManager::internal_acquire_read_buffer`.  On success returns
`some (latest_idx, data_size, frame_version)` together with the manager whose
reader count at `latest_idx` was fetch-added by one (a `uint32_t`, hence the
modulus). -/
def internal_acquire_read_buffer (m : ShmManager) :
    Option (Nat × Nat × Nat) × ShmStatus × ShmManager :=
  if ¬ (m.mapped && m.isInit) then (none, ShmStatus.NotInitialized, m)
  else
    let scan := scanMax m.ctrl 0 0 0 false
    if ¬ scan.2.2 then (none, ShmStatus.NoDataAvailable, m)
    else
      let latest_idx := scan.1
      let b := m.buf latest_idx
      let b2 := { b with reader_count := (b.reader_count + 1) % U32_MOD }
      (some (latest_idx, b2.data_size, b2.frame_version), ShmStatus.Success,
       { m with ctrl := m.ctrl.set latest_idx b2 })

/-- `ShmManager::internal_release_read_buffer`: fetch-sub the `uint32_t`
reader count by one (wrapping at zero, as `fetch_sub` does). -/
def internal_release_read_buffer (m : ShmManager) (buffer_idx : Nat) :
    ShmManager :=
  if ¬ m.isInit then m
  else if ¬ m.mapped then m
  else if NUM_BUFFERS ≤ buffer_idx then m
  else
    let b := { m.buf buffer_idx with
                 reader_count :=
                   ((m.buf buffer_idx).reader_count + (U32_MOD - 1)) % U32_MOD }
    { m with ctrl := m.ctrl.set buffer_idx b }

/-- `WriteBufferGuard` (from `shm_types.h`): `buffer` is the data pointer
(`some i` = pointer into buffer `i`, `none` = `nullptr`). -/
structure WriteBufferGuard where
  buffer : Option Nat
  capacity : Nat
  buffer_idx : Nat
  committed : Bool
deriving DecidableEq

instance : Inhabited WriteBufferGuard := ⟨⟨none, 0, 0, false⟩⟩

/-- The `WriteBufferGuard` constructor: run the internal acquisition and
record its result; `capacity_` is set to `expected_size` in either case,
`buffer_idx_` stays 0 when the acquisition fails. -/
def acquireWriteGuard (m : ShmManager) (expected_size : Nat) :
    WriteBufferGuard × ShmManager :=
  let r := internal_acquire_write_buffer m expected_size
  match r.1 with
  | some i => (⟨some i, expected_size, i, false⟩, r.2)
  | none => (⟨none, expected_size, 0, false⟩, r.2)

/-- `WriteBufferGuard::commit`: reject invalid or already committed guards,
then check `actual_size` against the guard capacity (the `expected_size`
passed at acquisition), mark the guard committed and run the internal
commit. -/
def WriteBufferGuard.commit (g : WriteBufferGuard) (m : ShmManager)
    (actual_size frame_version : Nat) :
    ShmStatus × WriteBufferGuard × ShmManager :=
  if g.buffer = none || g.committed then (ShmStatus.InvalidArguments, g, m)
  else if g.capacity < actual_size then (ShmStatus.BufferTooSmall, g, m)
  else
    let r := internal_commit_write_buffer m g.buffer_idx actual_size frame_version
    (r.1, { g with committed := true }, r.2)

/-- The `WriteBufferGuard` destructor: release only a valid, uncommitted
reservation (the release itself does not touch the control block). -/
def dropWriteGuard (g : WriteBufferGuard) (m : ShmManager) : ShmManager :=
  if g.buffer ≠ none && !g.committed then
    internal_release_write_buffer m g.buffer_idx
  else m

/-- `ReadBufferGuard` (from `shm_types.h`). -/
structure ReadBufferGuard where
  buffer : Option Nat
  size : Nat
  frame_version : Nat
  buffer_idx : Nat
  status : ShmStatus
deriving DecidableEq

/-- The `ReadBufferGuard` constructor: run the internal read acquisition;
`size_`, `frame_version_` and `buffer_idx_` keep their zero initials when it
fails, `status_` is what the internal call reported. -/
def acquireReadGuard (m : ShmManager) : ReadBufferGuard × ShmManager :=
  let r := internal_acquire_read_buffer m
  match r.1 with
  | some (i, sz, fv) => (⟨some i, sz, fv, i, r.2.1⟩, r.2.2)
  | none => (⟨none, 0, 0, 0, r.2.1⟩, r.2.2)

/-- The `ReadBufferGuard` destructor: decrement the reader count of a valid
reservation. -/
def dropReadGuard (g : ReadBufferGuard) (m : ShmManager) : ShmManager :=
  if g.buffer ≠ none then internal_release_read_buffer m g.buffer_idx else m

/-- `memcpy(base + i·B, bytes, bytes.length)` at offset `off` into data
buffer `i`. -/
def writeBytesAt (m : ShmManager) (i off : Nat) (bytes : List Nat) :
    ShmManager :=
  let old := m.data.getD i []
  let buf := old.take off ++ bytes ++ old.drop (off + bytes.length)
  { m with data := m.data.set i buf }

/-- `ShmManager::write_and_switch` (compatibility facade).  The bounded
busy-retry loop of the source re-runs the same acquisition; under the
sequential semantics every retry returns the same result, so it collapses to
a single attempt.  `data` is the source byte array, `size` the length
argument. -/
def write_and_switch (m : ShmManager) (data : List Nat)
    (size frame_version : Nat) : ShmStatus × ShmManager :=
  if size = 0 then (ShmStatus.InvalidArguments, m)
  else
    let a := acquireWriteGuard m size
    let g := a.1
    if g.buffer = none then (ShmStatus.AcquireFailed, dropWriteGuard g a.2)
    else
      let m2 := writeBytesAt a.2 g.buffer_idx 0 (data.take size)
      let c := g.commit m2 size frame_version
      (c.1, dropWriteGuard c.2.1 c.2.2)

/-- `ShmManager::try_read_latest`.  Returns the status, the bytes copied into
the caller buffer (`[]` when nothing was copied), the reported
`*actual_size`, and the manager after the guard was dropped. -/
def try_read_latest (m : ShmManager) (max_size : Nat) :
    ShmStatus × List Nat × Nat × ShmManager :=
  if max_size = 0 then (ShmStatus.InvalidArguments, [], 0, m)
  else
    let a := acquireReadGuard m
    let g := a.1
    if g.buffer = none then (g.status, [], 0, dropReadGuard g a.2)
    else
      let copy_size := min max_size g.size
      let bytes := (a.2.data.getD g.buffer_idx []).take copy_size
      (ShmStatus.Success, bytes, copy_size, dropReadGuard g a.2)

/-- Result of `shm_open(name, O_CREAT | O_EXCL | O_RDWR)`. -/
inductive OpenExclResult where
  | created
  | eexist
  | failed
deriving DecidableEq

/-- Outcome of the OS calls a lifecycle operation may perform, plus the
content of an already existing region when the call attaches instead of
creating. -/
structure OsEnv where
  openExcl : OpenExclResult
  openExistingOk : Bool
  ftruncateOk : Bool
  mmapOk : Bool
  munmapOk : Bool
  fd : Int
  existingCtrl : List BufCtrl
  existingData : List (List Nat)
deriving DecidableEq

/-- `ShmManager::validate_buffer_layout`: the only check is
`shm_total_size < sizeof(ShmBufferControl) + NUM_BUFFERS * buffer_size`. -/
def validate_buffer_layout (shm_total_size buffer_size : Nat) : ShmStatus :=
  if shm_total_size < SHM_CONTROL_SIZE + NUM_BUFFERS * buffer_size then
    ShmStatus.BufferTooSmall
  else ShmStatus.Success

/-- `ShmManager::create_and_init`.  The mutex-guarded state checks and the
layout validation happen before any OS call; afterwards the region is
created (truncated and zero-initialized) or attached (adopting the existing
region content from the environment). -/
def create_and_init (m : ShmManager) (os : OsEnv)
    (shm_total_size buffer_size : Nat) : ShmStatus × ShmManager :=
  if m.state ≠ ShmState.Uninitialized then (ShmStatus.AlreadyInitialized, m)
  else if validate_buffer_layout shm_total_size buffer_size ≠ ShmStatus.Success then
    (validate_buffer_layout shm_total_size buffer_size, m)
  else
    match os.openExcl with
    | OpenExclResult.failed => (ShmStatus.ShmOpenFailed, m)
    | OpenExclResult.eexist =>
      if ¬ os.openExistingOk then (ShmStatus.ShmOpenFailed, m)
      else if ¬ os.mmapOk then (ShmStatus.ShmMapFailed, { m with shm_fd := -1 })
      else
        (ShmStatus.Success,
         { m with
             state := ShmState.Created
             shm_fd := os.fd
             mapped := true
             current_shm_size := shm_total_size
             buffer_size := buffer_size
             ctrl := os.existingCtrl
             data := os.existingData })
    | OpenExclResult.created =>
      if ¬ os.ftruncateOk then
        (ShmStatus.ShmTruncateFailed, { m with is_creator := true, shm_fd := -1 })
      else if ¬ os.mmapOk then
        (ShmStatus.ShmMapFailed, { m with is_creator := true, shm_fd := -1 })
      else
        (ShmStatus.Success,
         { m with
             state := ShmState.Created
             shm_fd := os.fd
             mapped := true
             is_creator := true
             current_shm_size := shm_total_size
             buffer_size := buffer_size
             ctrl := initCtrl
             data := List.replicate NUM_BUFFERS (List.replicate buffer_size 0) })

/-- `ShmManager::unmap_and_close`: an already closed or never initialized
manager returns `Success` untouched; otherwise unmap (reporting a failure
status but proceeding), close the descriptor and move to `Closed`. -/
def unmap_and_close (m : ShmManager) (os : OsEnv) : ShmStatus × ShmManager :=
  if m.state = ShmState.Uninitialized || m.state = ShmState.Closed then
    (ShmStatus.Success, m)
  else
    let status := if m.mapped && !os.munmapOk then ShmStatus.ShmUnmapFailed
                  else ShmStatus.Success
    let m1 := if m.mapped then
                { m with mapped := false, current_shm_size := 0, buffer_size := 0 }
              else m
    let m2 := if m1.shm_fd ≠ -1 then { m1 with shm_fd := -1 } else m1
    (status, { m2 with state := ShmState.Closed })

/-- `ImageFormat` from `image_shm_manager.h` (declaration order fixes the
serialized tags: YUYV = 0, H264 = 1, BGR = 2, MJPG = 3). -/
inductive ImageFormat where
  | YUYV
  | H264
  | BGR
  | MJPG
deriving DecidableEq

/-- The integer tag of an `ImageFormat` value as laid out in memory. -/
def ImageFormat.toTag : ImageFormat → Nat
  | ImageFormat.YUYV => 0
  | ImageFormat.H264 => 1
  | ImageFormat.BGR => 2
  | ImageFormat.MJPG => 3

/-- `ImageHeader` from `image_shm_manager.h`.  `format` is kept as the raw
`uint32_t` tag because `read_image` obtains it by `memcpy` from shared
memory, where any 32-bit value can sit. -/
structure ImageHeader where
  format : Nat
  width : Nat
  height : Nat
  channels : Nat
  data_size : Nat
  frame_type : Nat
deriving DecidableEq

/-- `sizeof(ImageHeader)`: five 4-byte fields, one `uint8_t` and 3 bytes of
tail padding under 4-byte alignment: 24 bytes. -/
def HEADER_SIZE : Nat := 24

/-- Little-endian bytes of a `uint32_t` value. -/
def le32 (n : Nat) : List Nat :=
  [n % 256, n / 256 % 256, n / 2 ^ 16 % 256, n / 2 ^ 24 % 256]

/-- Read a little-endian `uint32_t` from the first four bytes of a list. -/
def decodeLe32 (bs : List Nat) : Nat :=
  bs.getD 0 0 % 256 + bs.getD 1 0 % 256 * 256 + bs.getD 2 0 % 256 * 2 ^ 16 +
    bs.getD 3 0 % 256 * 2 ^ 24

/-- The memory image of an `ImageHeader` (`memcpy(buffer, &header,
HEADER_SIZE)` in `write_image`); the three tail padding bytes are written as
zero. -/
def encodeHeader (h : ImageHeader) : List Nat :=
  le32 h.format ++ le32 h.width ++ le32 h.height ++ le32 h.channels ++
    le32 h.data_size ++ [h.frame_type % 256, 0, 0, 0]

/-- `memcpy(&header, buffer, HEADER_SIZE)` in `read_image`: reinterpret the
first `HEADER_SIZE` bytes of the committed buffer as an `ImageHeader`. -/
def decodeHeader (bs : List Nat) : ImageHeader :=
  { format := decodeLe32 bs
    width := decodeLe32 (bs.drop 4)
    height := decodeLe32 (bs.drop 8)
    channels := decodeLe32 (bs.drop 12)
    data_size := decodeLe32 (bs.drop 16)
    frame_type := bs.getD 20 0 % 256 }

/-- `ImageShmManager::write_image`.  The argument checks come first (a null
or empty payload, zero dimensions, or YUYV with a channel count other than
2), then the total size against the buffer capacity, then the writer
acquisition; on success the header and the payload are copied and the guard
committed.  The timestamp sampled by the source is no part of the stored
header layout. -/
def write_image (m : ShmManager) (image_data : List Nat)
    (image_data_size width height channels frame_version : Nat)
    (format : ImageFormat) (frame_type : Nat) : ShmStatus × ShmManager :=
  if image_data = [] || image_data_size = 0 || width = 0 || height = 0 ||
      (format = ImageFormat.YUYV && channels ≠ 2) then
    (ShmStatus.InvalidArguments, m)
  else
    let total_size := HEADER_SIZE + image_data_size
    if m.buffer_size < total_size then (ShmStatus.BufferTooSmall, m)
    else
      let a := acquireWriteGuard m total_size
      let g := a.1
      if g.buffer = none then (ShmStatus.BufferInUse, dropWriteGuard g a.2)
      else
        let hdr := encodeHeader
          { format := format.toTag
            width := width
            height := height
            channels := channels
            data_size := image_data_size
            frame_type := frame_type }
        let m2 := writeBytesAt a.2 g.buffer_idx 0 hdr
        let m3 := writeBytesAt m2 g.buffer_idx HEADER_SIZE
          (image_data.take image_data_size)
        let c := g.commit m3 total_size frame_version
        (c.1, dropWriteGuard c.2.1 c.2.2)

/-- The outputs `read_image` stores through its out-pointers on success. -/
structure ImageReadResult where
  payload : List Nat
  width : Nat
  height : Nat
  channels : Nat
  data_size : Nat
  frame_version : Nat
  format : Nat
  frame_type : Nat
deriving DecidableEq

/-- `ImageShmManager::read_image`: acquire a read reservation, then check in
order that the committed size holds a header, that it is at least
`HEADER_SIZE + header.data_size`, and that the payload fits the caller
buffer; only then copy the payload and fill the out-parameters. -/
def read_image (m : ShmManager) (max_buffer_size : Nat) :
    ShmStatus × Option ImageReadResult × ShmManager :=
  let a := acquireReadGuard m
  let g := a.1
  if g.buffer = none then (ShmStatus.NoDataAvailable, none, dropReadGuard g a.2)
  else if g.size < HEADER_SIZE then
    (ShmStatus.InvalidArguments, none, dropReadGuard g a.2)
  else
    let bytes := a.2.data.getD g.buffer_idx []
    let header := decodeHeader bytes
    if g.size < HEADER_SIZE + header.data_size then
      (ShmStatus.InvalidArguments, none, dropReadGuard g a.2)
    else if max_buffer_size < header.data_size then
      (ShmStatus.BufferTooSmall, none, dropReadGuard g a.2)
    else
      (ShmStatus.Success,
       some { payload := (bytes.drop HEADER_SIZE).take header.data_size
              width := header.width
              height := header.height
              channels := header.channels
              data_size := header.data_size
              frame_version := g.frame_version
              format := header.format
              frame_type := header.frame_type },
       dropReadGuard g a.2)

/-- A configuration of one producer/consumer process: the manager plus the
guards currently alive in it. -/
structure TraceConfig where
  m : ShmManager
  wgs : List WriteBufferGuard
  rgs : List ReadBufferGuard

/-- One guard-level operation of the protocol: construct a writer guard,
commit or destroy the writer guard at position `gi` of the live list,
construct a reader guard, destroy the reader guard at position `gi`. -/
inductive SOp where
  | acqW (expected : Nat)
  | commitW (gi actual ver : Nat)
  | dropW (gi : Nat)
  | acqR
  | dropR (gi : Nat)

/-- Execute one guard-level operation (operations naming a dead guard are
no-ops, since a C++ caller cannot name a destroyed guard). -/
def execOp (c : TraceConfig) : SOp → TraceConfig
  | SOp.acqW e =>
    let a := acquireWriteGuard c.m e
    ⟨a.2, c.wgs ++ [a.1], c.rgs⟩
  | SOp.commitW gi actual ver =>
    match c.wgs.get? gi with
    | none => c
    | some g =>
      let r := g.commit c.m actual ver
      ⟨r.2.2, c.wgs.set gi r.2.1, c.rgs⟩
  | SOp.dropW gi =>
    match c.wgs.get? gi with
    | none => c
    | some g => ⟨dropWriteGuard g c.m, c.wgs.eraseIdx gi, c.rgs⟩
  | SOp.acqR =>
    let a := acquireReadGuard c.m
    ⟨a.2, c.wgs, c.rgs ++ [a.1]⟩
  | SOp.dropR gi =>
    match c.rgs.get? gi with
    | none => c
    | some g => ⟨dropReadGuard g c.m, c.wgs, c.rgs.eraseIdx gi⟩

/-- Execute a list of guard-level operations in order. -/
def execTrace (c : TraceConfig) : List SOp → TraceConfig
  | [] => c
  | op :: rest => execTrace (execOp c op) rest

/-- The manager right after `create_and_init` created a fresh region of
per-buffer capacity `B`: header freshly initialized, state `Created`. -/
def freshMgr (B : Nat) : ShmManager :=
  { state := ShmState.Created
    shm_fd := 0
    mapped := true
    is_creator := true
    current_shm_size := SHM_CONTROL_SIZE + NUM_BUFFERS * B
    buffer_size := B
    ctrl := initCtrl
    data := List.replicate NUM_BUFFERS (List.replicate B 0) }

/-- A fresh configuration: the freshly initialized manager, no live guards. -/
def freshConfig (B : Nat) : TraceConfig := ⟨freshMgr B, [], []⟩

/-- `j` is the index of the minimum `frame_version`, ties broken by the
lowest index. -/
def isMinIdx (bufs : List BufCtrl) (j : Nat) : Prop :=
  j < bufs.length ∧
  (∀ k, k < bufs.length →
    (bufs.getD j default).frame_version ≤ (bufs.getD k default).frame_version) ∧
  (∀ k, k < j →
    (bufs.getD j default).frame_version < (bufs.getD k default).frame_version)

/-- `j` is ready with a positive version, carries the maximum
`frame_version` among ready buffers, and is the lowest such index. -/
def isMaxIdx (bufs : List BufCtrl) (j : Nat) : Prop :=
  j < bufs.length ∧ (bufs.getD j default).ready = true ∧
  0 < (bufs.getD j default).frame_version ∧
  (∀ k, k < bufs.length → (bufs.getD k default).ready = true →
    (bufs.getD k default).frame_version ≤ (bufs.getD j default).frame_version) ∧
  (∀ k, k < j → (bufs.getD k default).ready = true →
    (bufs.getD k default).frame_version < (bufs.getD j default).frame_version)

theorem scanMin3_spec (b0 b1 b2 : BufCtrl)
    (h0 : b0.frame_version ≤ UINT64_MAX) (h1 : b1.frame_version ≤ UINT64_MAX)
    (h2 : b2.frame_version ≤ UINT64_MAX) :
    isMinIdx [b0, b1, b2] (scanMin [b0, b1, b2] 0 0 UINT64_MAX) := by
  have hM : UINT64_MAX = 2 ^ 64 - 1 := rfl
  simp only [scanMin]
  split_ifs with hA hB hC hD hE hF hG <;>
    (refine ⟨by norm_num, fun k hk => ?_, fun k hk => ?_⟩ <;>
      (try simp only [List.length_cons, List.length_nil] at hk) <;>
      (have hk3 : k < 3 := by omega) <;>
      (interval_cases k <;> (try simp [List.getD]) <;> omega))

theorem scanMax3_none (b0 b1 b2 : BufCtrl)
    (h0 : b0.ready = true → b0.frame_version = 0)
    (h1 : b1.ready = true → b1.frame_version = 0)
    (h2 : b2.ready = true → b2.frame_version = 0) :
    scanMax [b0, b1, b2] 0 0 0 false = (0, 0, false) := by
  simp only [scanMax]
  split_ifs <;> simp_all

theorem scanMax3_some (b0 b1 b2 : BufCtrl)
    (h : (b0.ready = true ∧ 0 < b0.frame_version) ∨
         (b1.ready = true ∧ 0 < b1.frame_version) ∨
         (b2.ready = true ∧ 0 < b2.frame_version)) :
    ∃ j, scanMax [b0, b1, b2] 0 0 0 false =
           (j, ([b0, b1, b2].getD j default).frame_version, true) ∧
         isMaxIdx [b0, b1, b2] j := by
  simp only [scanMax]
  split_ifs with hA hB hC <;>
    first
      | (exfalso
         rcases h with ⟨hr, hv⟩ | ⟨hr, hv⟩ | ⟨hr, hv⟩ <;> simp_all
         done)
      | (refine ⟨_, rfl, by norm_num, ?_, ?_, fun k hk hr => ?_, fun k hk hr => ?_⟩ <;>
          (try simp only [List.length_cons, List.length_nil] at hk) <;>
          (try (have hk3 : k < 3 := by omega)) <;>
          (try interval_cases k) <;>
          (try simp [List.getD] at hr ⊢) <;>
          (try simp only [hr, Bool.and_eq_true, decide_eq_true_eq, Bool.true_and,
            not_lt, true_and, and_true] at hA hB hC) <;>
          simp_all [List.getD] <;> omega)

theorem list_len3 {α : Type _} :
    ∀ (l : List α), l.length = 3 → ∃ a b c, l = [a, b, c]
  | [a, b, c], _ => ⟨a, b, c, rfl⟩
  | [], h => by simp at h
  | [_], h => by simp at h
  | [_, _], h => by simp at h
  | _ :: _ :: _ :: _ :: _, h => by simp at h

/-- C1 (confirmed): for every manager in an initialized (`Created` or
`Mapped`) state and every `expected_size` not exceeding the per-buffer
capacity, `internal_acquire_write_buffer` scans the `NUM_BUFFERS` buffers
and selects the index with the minimum `frame_version` (ties broken by the
lowest index); if the reader count there is positive it returns `nullptr`
and changes nothing, otherwise it stores `ready := false` there and returns
the pointer to that buffer. -/
theorem writer_acquire_min_version (m : ShmManager) (expected_size : Nat)
    (hinit : m.isInit = true) (hmap : m.mapped = true)
    (hlen : m.ctrl.length = NUM_BUFFERS)
    (hver : ∀ b ∈ m.ctrl, b.frame_version ≤ UINT64_MAX)
    (hexp : expected_size ≤ m.buffer_size) :
    ∃ j, isMinIdx m.ctrl j ∧
      (0 < (m.buf j).reader_count →
        internal_acquire_write_buffer m expected_size = (none, m)) ∧
      ((m.buf j).reader_count = 0 →
        internal_acquire_write_buffer m expected_size =
          (some j,
           { m with ctrl := m.ctrl.set j ({ m.buf j with ready := false }) })) := by
  obtain ⟨b0, b1, b2, hctrl⟩ := list_len3 m.ctrl hlen
  have hmin : isMinIdx m.ctrl (scanMin m.ctrl 0 0 UINT64_MAX) := by
    rw [hctrl]
    exact scanMin3_spec b0 b1 b2
      (hver b0 (by rw [hctrl]; simp)) (hver b1 (by rw [hctrl]; simp))
      (hver b2 (by rw [hctrl]; simp))
  refine ⟨scanMin m.ctrl 0 0 UINT64_MAX, hmin, fun hrc => ?_, fun hrc => ?_⟩
  · simp [internal_acquire_write_buffer, hinit, hmap, not_lt.mpr hexp, hrc]
  · simp [internal_acquire_write_buffer, hinit, hmap, not_lt.mpr hexp, hrc]

/-- Witness for C1 at the freshly created manager with `B = 8` and
`expected_size = 4`. -/
theorem writer_acquire_min_version_witness :
    ∃ j, isMinIdx (freshMgr 8).ctrl j ∧
      (0 < ((freshMgr 8).buf j).reader_count →
        internal_acquire_write_buffer (freshMgr 8) 4 = (none, freshMgr 8)) ∧
      (((freshMgr 8).buf j).reader_count = 0 →
        internal_acquire_write_buffer (freshMgr 8) 4 =
          (some j,
           { freshMgr 8 with
               ctrl := (freshMgr 8).ctrl.set j
                 ({ (freshMgr 8).buf j with ready := false }) })) :=
  writer_acquire_min_version (freshMgr 8) 4 (by decide) (by decide) (by decide)
    (by decide) (by decide)

/-- C2 (amended): reader acquisition scans the buffers and, among those with
`ready = true` AND a positive `frame_version`, selects the one with the
maximum `frame_version` (ties broken by the lowest index), increments its
reader count by exactly one and returns its `data_size`, `frame_version`
and data pointer; if every ready buffer still has `frame_version = 0` (in
particular if none is ready) it returns `NoDataAvailable` and reserves
nothing. -/
theorem reader_acquire_max_version (m : ShmManager)
    (hinit : m.isInit = true) (hmap : m.mapped = true)
    (hlen : m.ctrl.length = NUM_BUFFERS)
    (hrc : ∀ b ∈ m.ctrl, b.reader_count + 1 < U32_MOD) :
    ((∀ k, k < NUM_BUFFERS → (m.buf k).ready = true → (m.buf k).frame_version = 0) →
      internal_acquire_read_buffer m = (none, ShmStatus.NoDataAvailable, m)) ∧
    ((∃ k, k < NUM_BUFFERS ∧ (m.buf k).ready = true ∧ 0 < (m.buf k).frame_version) →
      ∃ j, isMaxIdx m.ctrl j ∧
        internal_acquire_read_buffer m =
          (some (j, (m.buf j).data_size, (m.buf j).frame_version), ShmStatus.Success,
           { m with ctrl := m.ctrl.set j ({ m.buf j with reader_count := (m.buf j).reader_count + 1 }) })) := by
  obtain ⟨b0, b1, b2, hctrl⟩ := list_len3 m.ctrl hlen
  constructor
  · intro h
    have hscan : scanMax m.ctrl 0 0 0 false = (0, 0, false) := by
      rw [hctrl]
      refine scanMax3_none b0 b1 b2 ?_ ?_ ?_
      · have := h 0 (by decide); simpa [ShmManager.buf, hctrl] using this
      · have := h 1 (by decide); simpa [ShmManager.buf, hctrl] using this
      · have := h 2 (by decide); simpa [ShmManager.buf, hctrl] using this
    simp [internal_acquire_read_buffer, hinit, hmap, hscan]
  · rintro ⟨k, hk, hkr, hkv⟩
    have hdisj : (b0.ready = true ∧ 0 < b0.frame_version) ∨
        (b1.ready = true ∧ 0 < b1.frame_version) ∨
        (b2.ready = true ∧ 0 < b2.frame_version) := by
      simp only [NUM_BUFFERS] at hk
      interval_cases k <;> simp [ShmManager.buf, hctrl, List.getD] at hkr hkv <;>
        first
          | exact Or.inl ⟨hkr, hkv⟩
          | exact Or.inr (Or.inl ⟨hkr, hkv⟩)
          | exact Or.inr (Or.inr ⟨hkr, hkv⟩)
    obtain ⟨j, hscan, hmax⟩ := scanMax3_some b0 b1 b2 hdisj
    rw [← hctrl] at hscan hmax
    have hj3 : j < 3 := by
      have := hmax.1; rw [hctrl] at this; simpa using this
    have hmem : m.buf j ∈ m.ctrl := by
      interval_cases j <;> simp [ShmManager.buf, hctrl, List.getD]
    have hmod : ((m.buf j).reader_count + 1) % U32_MOD = (m.buf j).reader_count + 1 :=
      Nat.mod_eq_of_lt (hrc _ hmem)
    refine ⟨j, hmax, ?_⟩
    simp only [internal_acquire_read_buffer, hinit, hmap, hscan, Bool.and_true,
      Bool.not_eq_true, ite_false, ite_true, not_true, if_neg, hmod]

/-- A small populated region used to witness the reader-selection theorem:
buffers 0 and 1 are ready with versions 3 and 5, buffer 2 is being written. -/
def demoReadMgr : ShmManager :=
  { state := ShmState.Created
    shm_fd := 0
    mapped := true
    is_creator := true
    current_shm_size := 76
    buffer_size := 4
    ctrl := [⟨3, 2, true, 0⟩, ⟨5, 4, true, 1⟩, ⟨1, 1, false, 0⟩]
    data := [[1, 2, 0, 0], [3, 4, 5, 6], [0, 0, 0, 0]] }

/-- Witness for C2 at `demoReadMgr`. -/
theorem reader_acquire_max_version_witness :
    ((∀ k, k < NUM_BUFFERS → (demoReadMgr.buf k).ready = true →
        (demoReadMgr.buf k).frame_version = 0) →
      internal_acquire_read_buffer demoReadMgr =
        (none, ShmStatus.NoDataAvailable, demoReadMgr)) ∧
    ((∃ k, k < NUM_BUFFERS ∧ (demoReadMgr.buf k).ready = true ∧
        0 < (demoReadMgr.buf k).frame_version) →
      ∃ j, isMaxIdx demoReadMgr.ctrl j ∧
        internal_acquire_read_buffer demoReadMgr =
          (some (j, (demoReadMgr.buf j).data_size, (demoReadMgr.buf j).frame_version),
           ShmStatus.Success,
           { demoReadMgr with ctrl := demoReadMgr.ctrl.set j ({ demoReadMgr.buf j with reader_count := (demoReadMgr.buf j).reader_count + 1 }) })) :=
  reader_acquire_max_version demoReadMgr (by decide) (by decide) (by decide)
    (by decide)

/-- A region whose only ready buffer was committed with `frame_version = 0`. -/
def readyV0Mgr : ShmManager :=
  { state := ShmState.Created
    shm_fd := 0
    mapped := true
    is_creator := true
    current_shm_size := 76
    buffer_size := 4
    ctrl := [⟨0, 2, true, 0⟩, ⟨0, 0, false, 0⟩, ⟨0, 0, false, 0⟩]
    data := [[7, 7, 0, 0], [0, 0, 0, 0], [0, 0, 0, 0]] }

/-- C2 counterexample to the claim as stated: buffer 0 is ready (so a scan
among ready buffers would select it), yet the acquisition returns
`NoDataAvailable` and reserves nothing, because the scan also demands a
version strictly above the initial maximum 0. -/
theorem reader_acquire_ready_zero_counterexample :
    (readyV0Mgr.buf 0).ready = true ∧
    internal_acquire_read_buffer readyV0Mgr =
      (none, ShmStatus.NoDataAvailable, readyV0Mgr) := by
  decide

/-- C3 (amended): committing a writer reservation on buffer `j` with
`(actual_size, frame_version)` checks `actual_size` against the guard
capacity (the `expected_size` passed at acquisition, not the per-buffer
capacity `B`): beyond it, `BufferTooSmall` is returned and the reservation
stays uncommitted with every control cell unchanged; otherwise the commit
stores `data_size[j] := actual_size`, `frame_version[j] := frame_version`
and `ready[j] := true`, in this order, and returns `Success`.  The control
block has no timestamp cell and no timestamp argument exists. -/
theorem guard_commit_stores (m : ShmManager) (g : WriteBufferGuard)
    (actual ver j : Nat)
    (hg : g.buffer = some j) (hidx : g.buffer_idx = j) (hj : j < NUM_BUFFERS)
    (hc : g.committed = false) (hinit : m.isInit = true) (hmap : m.mapped = true) :
    (g.capacity < actual →
      g.commit m actual ver = (ShmStatus.BufferTooSmall, g, m)) ∧
    (actual ≤ g.capacity →
      g.commit m actual ver =
        (ShmStatus.Success, { g with committed := true },
         { m with ctrl := m.ctrl.set j ({ m.buf j with data_size := actual, frame_version := ver, ready := true }) })) := by
  constructor
  · intro h
    simp [WriteBufferGuard.commit, hg, hc, h]
  · intro h
    simp [WriteBufferGuard.commit, hg, hc, not_lt.mpr h,
      internal_commit_write_buffer, hinit, hmap, Nat.not_le.mpr hj, hidx]

/-- Witness for C3: the guard freshly acquired on a `B = 10` region with
`expected_size = 4`. -/
theorem guard_commit_stores_witness :
    ((acquireWriteGuard (freshMgr 10) 4).1.capacity < 6 →
      (acquireWriteGuard (freshMgr 10) 4).1.commit
          (acquireWriteGuard (freshMgr 10) 4).2 6 1 =
        (ShmStatus.BufferTooSmall, (acquireWriteGuard (freshMgr 10) 4).1,
         (acquireWriteGuard (freshMgr 10) 4).2)) ∧
    (6 ≤ (acquireWriteGuard (freshMgr 10) 4).1.capacity →
      (acquireWriteGuard (freshMgr 10) 4).1.commit
          (acquireWriteGuard (freshMgr 10) 4).2 6 1 =
        (ShmStatus.Success,
         { (acquireWriteGuard (freshMgr 10) 4).1 with committed := true },
         { (acquireWriteGuard (freshMgr 10) 4).2 with ctrl := (acquireWriteGuard (freshMgr 10) 4).2.ctrl.set 0 ({ (acquireWriteGuard (freshMgr 10) 4).2.buf 0 with data_size := 6, frame_version := 1, ready := true }) })) :=
  guard_commit_stores (acquireWriteGuard (freshMgr 10) 4).2
    (acquireWriteGuard (freshMgr 10) 4).1 6 1 0 (by decide) (by decide)
    (by decide) (by decide) (by decide) (by decide)

/-- C3 counterexample to the claim as stated: on a region with `B = 10` a
guard acquired with `expected_size = 4` refuses `actual_size = 6` with
`BufferTooSmall` and stores nothing, although `6 ≤ B`, because the source
checks against the guard capacity rather than the per-buffer capacity. -/
theorem guard_commit_capacity_counterexample :
    6 ≤ (freshMgr 10).buffer_size ∧
    ((acquireWriteGuard (freshMgr 10) 4).1.commit
        (acquireWriteGuard (freshMgr 10) 4).2 6 1).1 = ShmStatus.BufferTooSmall ∧
    ((acquireWriteGuard (freshMgr 10) 4).1.commit
        (acquireWriteGuard (freshMgr 10) 4).2 6 1).2.2 =
      (acquireWriteGuard (freshMgr 10) 4).2 := by
  decide

/-- C6 (confirmed): destroying a writer guard that holds an uncommitted
reservation on buffer `j` leaves the manager completely unchanged (so
`ready[j]` stays `false`, `reader_count[j]` and `data_size[j]` keep their
values); destroying a reader guard that holds a successful reservation on
buffer `j` decrements `reader_count[j]` by exactly one and changes no other
control cell and no data buffer. -/
theorem guard_release_effects :
    (∀ (m : ShmManager) (g : WriteBufferGuard) (j : Nat),
      g.buffer = some j → g.committed = false → (m.buf j).ready = false →
      dropWriteGuard g m = m ∧ ((dropWriteGuard g m).buf j).ready = false) ∧
    (∀ (m : ShmManager) (g : ReadBufferGuard) (j : Nat),
      g.buffer = some j → g.buffer_idx = j → j < NUM_BUFFERS →
      m.isInit = true → m.mapped = true →
      0 < (m.buf j).reader_count → (m.buf j).reader_count < U32_MOD →
      dropReadGuard g m =
        { m with ctrl := m.ctrl.set j ({ m.buf j with reader_count := (m.buf j).reader_count - 1 }) }) := by
  constructor
  · intro m g j hg hc hr
    constructor
    · simp [dropWriteGuard, hg, hc, internal_release_write_buffer]
    · simp [dropWriteGuard, hg, hc, internal_release_write_buffer, hr]
  · intro m g j hg hidx hj hinit hmap hpos hlt
    have h32 : U32_MOD = 4294967296 := by norm_num [U32_MOD]
    have hmod : ((m.buf j).reader_count + (U32_MOD - 1)) % U32_MOD =
        (m.buf j).reader_count - 1 := by
      rw [h32] at hlt ⊢
      omega
    simp [dropReadGuard, hg, internal_release_read_buffer, hinit, hmap,
      Nat.not_le.mpr hj, hidx, hmod]

/-- Witness for C6: a fresh writer guard on a `B = 8` region and a reader
guard pinning buffer 1 of `demoReadMgr`. -/
theorem guard_release_effects_witness :
    (dropWriteGuard (acquireWriteGuard (freshMgr 8) 2).1
        (acquireWriteGuard (freshMgr 8) 2).2 =
      (acquireWriteGuard (freshMgr 8) 2).2 ∧
     ((dropWriteGuard (acquireWriteGuard (freshMgr 8) 2).1
        (acquireWriteGuard (freshMgr 8) 2).2).buf 0).ready = false) ∧
    dropReadGuard ⟨some 1, 4, 5, 1, ShmStatus.Success⟩ demoReadMgr =
      { demoReadMgr with ctrl := demoReadMgr.ctrl.set 1 ({ demoReadMgr.buf 1 with reader_count := (demoReadMgr.buf 1).reader_count - 1 }) } :=
  ⟨guard_release_effects.1 (acquireWriteGuard (freshMgr 8) 2).2
      (acquireWriteGuard (freshMgr 8) 2).1 0 (by decide) (by decide) (by decide),
   guard_release_effects.2 demoReadMgr ⟨some 1, 4, 5, 1, ShmStatus.Success⟩ 1
      (by decide) (by decide) (by decide) (by decide) (by decide) (by decide)
      (by decide)⟩

/-- C9 (confirmed): `unmap_and_close` on an `Uninitialized` or `Closed`
manager returns `Success` and leaves the manager (state, descriptor,
mapping flag, sizes and the whole region content) unchanged. -/
theorem unmap_close_idempotent (m : ShmManager) (os : OsEnv)
    (h : m.state = ShmState.Uninitialized ∨ m.state = ShmState.Closed) :
    unmap_and_close m os = (ShmStatus.Success, m) := by
  rcases h with h | h <;> simp [unmap_and_close, h]

/-- An environment in which every OS call succeeds. -/
def allOkOs : OsEnv :=
  { openExcl := OpenExclResult.created
    openExistingOk := true
    ftruncateOk := true
    mmapOk := true
    munmapOk := true
    fd := 3
    existingCtrl := []
    existingData := [] }

/-- A closed manager used to witness the idempotent-close theorem. -/
def closedDemoMgr : ShmManager := { freshMgr 4 with state := ShmState.Closed }

/-- Witness for C9 at `closedDemoMgr`. -/
theorem unmap_close_idempotent_witness :
    unmap_and_close closedDemoMgr allOkOs = (ShmStatus.Success, closedDemoMgr) :=
  unmap_close_idempotent closedDemoMgr allOkOs (Or.inr rfl)

/-- C10 (confirmed): `write_image` rejects `width = 0`, `height = 0`, and
`YUYV` with a channel count other than 2, returning `InvalidArguments`
before acquiring any writer reservation, with every control cell and data
buffer unchanged. -/
theorem write_image_arg_checks (m : ShmManager) (image_data : List Nat)
    (sz w hgt ch ver ft : Nat) (fmt : ImageFormat)
    (h : w = 0 ∨ hgt = 0 ∨ (fmt = ImageFormat.YUYV ∧ ch ≠ 2)) :
    write_image m image_data sz w hgt ch ver fmt ft =
      (ShmStatus.InvalidArguments, m) := by
  rcases h with h | h | ⟨h1, h2⟩
  · simp [write_image, h]
  · simp [write_image, h]
  · simp [write_image, h1, h2]

/-- Witness for C10: a YUYV write with 3 channels on a fresh region. -/
theorem write_image_arg_checks_witness :
    write_image (freshMgr 64) [1, 2] 2 4 2 3 1 ImageFormat.YUYV 0 =
      (ShmStatus.InvalidArguments, freshMgr 64) :=
  write_image_arg_checks (freshMgr 64) [1, 2] 2 4 2 3 1 0 ImageFormat.YUYV
    (Or.inr (Or.inr ⟨rfl, by decide⟩))

/-- A manager that has not been initialized yet. -/
def uninitDemoMgr : ShmManager :=
  { state := ShmState.Uninitialized
    shm_fd := -1
    mapped := false
    is_creator := false
    current_shm_size := 0
    buffer_size := 0
    ctrl := []
    data := [] }

/-- C8 (amended): `validate_buffer_layout(T, B)` returns `BufferTooSmall`
exactly when `T < sizeof(ShmBufferControl) + NUM_BUFFERS * B` and `Success`
otherwise; it never returns `InvalidArguments` (there is no `B = 0` check,
and the buffer count is the compile-time constant `NUM_BUFFERS`, so no `N`
argument exists); `create_and_init` on an uninitialized manager with a
cooperative OS returns `Success` exactly when the layout fits. -/
theorem layout_validation (T B : Nat) :
    (validate_buffer_layout T B = ShmStatus.BufferTooSmall ↔
      T < SHM_CONTROL_SIZE + NUM_BUFFERS * B) ∧
    validate_buffer_layout T B ≠ ShmStatus.InvalidArguments ∧
    (∀ (m : ShmManager) (os : OsEnv), m.state = ShmState.Uninitialized →
      os.openExcl = OpenExclResult.created → os.ftruncateOk = true →
      os.mmapOk = true →
      ((create_and_init m os T B).1 = ShmStatus.Success ↔
        SHM_CONTROL_SIZE + NUM_BUFFERS * B ≤ T)) := by
  refine ⟨?_, ?_, ?_⟩
  · unfold validate_buffer_layout
    split_ifs with h <;> simp [h]
  · unfold validate_buffer_layout
    split_ifs with h <;> simp
  · intro m os h1 h2 h3 h4
    simp only [create_and_init, validate_buffer_layout, h1, h2, h3, h4]
    split_ifs with hv <;> simp_all

/-- Witness for C8: creating a 100-byte region with `B = 10` succeeds. -/
theorem layout_validation_witness :
    (create_and_init uninitDemoMgr allOkOs 100 10).1 = ShmStatus.Success :=
  ((layout_validation 100 10).2.2 uninitDemoMgr allOkOs rfl rfl rfl rfl).mpr
    (by decide)

/-- C8 counterexample to the claim as stated: with `B = 0` (and `T` equal to
the bare header size) validation returns `Success`, not `InvalidArguments`,
and `create_and_init` even proceeds to `Success`: the source has no
zero-size argument check. -/
theorem layout_validation_zero_counterexample :
    validate_buffer_layout SHM_CONTROL_SIZE 0 = ShmStatus.Success ∧
    (create_and_init uninitDemoMgr allOkOs SHM_CONTROL_SIZE 0).1 =
      ShmStatus.Success := by
  decide

theorem read_acquire_none_mgr (m : ShmManager)
    (h : (internal_acquire_read_buffer m).1 = none) :
    (internal_acquire_read_buffer m).2.2 = m := by
  simp only [internal_acquire_read_buffer] at h ⊢
  split_ifs at h ⊢ <;> simp_all

/-- C7 (amended): `read_image` checks, in order: `NoDataAvailable` when the
read acquisition yields nothing; `InvalidArguments` when the committed size
is smaller than the image header; `InvalidArguments` when the committed
size is smaller than `header.data_size + HEADER_SIZE` (a committed size
strictly larger than that sum is accepted, not rejected); `BufferTooSmall`
when `header.data_size` exceeds the output capacity; otherwise it copies
the `header.data_size` payload bytes and returns `Success` with the header
fields and the transport frame version. -/
theorem read_image_checks (m : ShmManager) (cap : Nat) :
    ((internal_acquire_read_buffer m).1 = none →
      read_image m cap = (ShmStatus.NoDataAvailable, none, m)) ∧
    (∀ j sz fv, (internal_acquire_read_buffer m).1 = some (j, sz, fv) →
      (sz < HEADER_SIZE →
        (read_image m cap).1 = ShmStatus.InvalidArguments ∧
        (read_image m cap).2.1 = none) ∧
      (HEADER_SIZE ≤ sz →
        sz < HEADER_SIZE + (decodeHeader ((internal_acquire_read_buffer m).2.2.data.getD j [])).data_size →
        (read_image m cap).1 = ShmStatus.InvalidArguments ∧
        (read_image m cap).2.1 = none) ∧
      (HEADER_SIZE + (decodeHeader ((internal_acquire_read_buffer m).2.2.data.getD j [])).data_size ≤ sz →
        cap < (decodeHeader ((internal_acquire_read_buffer m).2.2.data.getD j [])).data_size →
        (read_image m cap).1 = ShmStatus.BufferTooSmall ∧
        (read_image m cap).2.1 = none) ∧
      (HEADER_SIZE + (decodeHeader ((internal_acquire_read_buffer m).2.2.data.getD j [])).data_size ≤ sz →
        (decodeHeader ((internal_acquire_read_buffer m).2.2.data.getD j [])).data_size ≤ cap →
        read_image m cap =
          (ShmStatus.Success,
           some { payload := (((internal_acquire_read_buffer m).2.2.data.getD j []).drop HEADER_SIZE).take (decodeHeader ((internal_acquire_read_buffer m).2.2.data.getD j [])).data_size
                  width := (decodeHeader ((internal_acquire_read_buffer m).2.2.data.getD j [])).width
                  height := (decodeHeader ((internal_acquire_read_buffer m).2.2.data.getD j [])).height
                  channels := (decodeHeader ((internal_acquire_read_buffer m).2.2.data.getD j [])).channels
                  data_size := (decodeHeader ((internal_acquire_read_buffer m).2.2.data.getD j [])).data_size
                  frame_version := fv
                  format := (decodeHeader ((internal_acquire_read_buffer m).2.2.data.getD j [])).format
                  frame_type := (decodeHeader ((internal_acquire_read_buffer m).2.2.data.getD j [])).frame_type },
           internal_release_read_buffer (internal_acquire_read_buffer m).2.2 j))) := by
  constructor
  · intro h
    have hm := read_acquire_none_mgr m h
    simp [read_image, acquireReadGuard, h, hm, dropReadGuard]
  · intro j sz fv h
    refine ⟨fun h1 => ?_, fun h1 h2 => ?_, fun h1 h2 => ?_, fun h1 h2 => ?_⟩
    · simp only [read_image, acquireReadGuard, h]
      rw [if_neg (by simp), if_pos h1]
      exact ⟨rfl, rfl⟩
    · simp only [read_image, acquireReadGuard, h]
      rw [if_neg (by simp), if_neg (Nat.not_lt.mpr h1), if_pos h2]
      exact ⟨rfl, rfl⟩
    · simp only [read_image, acquireReadGuard, h]
      rw [if_neg (by simp), if_neg (Nat.not_lt.mpr (le_trans (Nat.le_add_right _ _) h1)),
        if_neg (Nat.not_lt.mpr h1), if_pos h2]
      exact ⟨rfl, rfl⟩
    · simp only [read_image, acquireReadGuard, h]
      rw [if_neg (by simp), if_neg (Nat.not_lt.mpr (le_trans (Nat.le_add_right _ _) h1)),
        if_neg (Nat.not_lt.mpr h1), if_neg (Nat.not_lt.mpr h2)]
      simp [dropReadGuard]

/-- A region holding one well-formed committed image frame: the committed
size 28 equals `HEADER_SIZE + data_size` for the BGR 1x1x4 payload
`[9, 9, 9, 9]`. -/
def imgDemoMgr : ShmManager :=
  { state := ShmState.Created
    shm_fd := 0
    mapped := true
    is_creator := true
    current_shm_size := 184
    buffer_size := 40
    ctrl := [⟨1, 28, true, 0⟩, ⟨0, 0, false, 0⟩, ⟨0, 0, false, 0⟩]
    data := [encodeHeader ⟨2, 1, 1, 4, 4, 0⟩ ++ [9, 9, 9, 9] ++ List.replicate 12 0,
             List.replicate 40 0, List.replicate 40 0] }

/-- Witness for C7: reading the well-formed frame of `imgDemoMgr` succeeds
and returns its payload and header fields. -/
theorem read_image_checks_witness :
    read_image imgDemoMgr 40 =
      (ShmStatus.Success,
       some { payload := (((internal_acquire_read_buffer imgDemoMgr).2.2.data.getD 0 []).drop HEADER_SIZE).take (decodeHeader ((internal_acquire_read_buffer imgDemoMgr).2.2.data.getD 0 [])).data_size
              width := (decodeHeader ((internal_acquire_read_buffer imgDemoMgr).2.2.data.getD 0 [])).width
              height := (decodeHeader ((internal_acquire_read_buffer imgDemoMgr).2.2.data.getD 0 [])).height
              channels := (decodeHeader ((internal_acquire_read_buffer imgDemoMgr).2.2.data.getD 0 [])).channels
              data_size := (decodeHeader ((internal_acquire_read_buffer imgDemoMgr).2.2.data.getD 0 [])).data_size
              frame_version := 1
              format := (decodeHeader ((internal_acquire_read_buffer imgDemoMgr).2.2.data.getD 0 [])).format
              frame_type := (decodeHeader ((internal_acquire_read_buffer imgDemoMgr).2.2.data.getD 0 [])).frame_type },
       internal_release_read_buffer (internal_acquire_read_buffer imgDemoMgr).2.2 0) :=
  ((read_image_checks imgDemoMgr 40).2 0 28 1 (by decide)).2.2.2 (by decide)
    (by decide)

/-- A region whose committed frame is one byte larger than
`HEADER_SIZE + header.data_size`. -/
def imgCexMgr : ShmManager :=
  { state := ShmState.Created
    shm_fd := 0
    mapped := true
    is_creator := true
    current_shm_size := 184
    buffer_size := 40
    ctrl := [⟨1, 29, true, 0⟩, ⟨0, 0, false, 0⟩, ⟨0, 0, false, 0⟩]
    data := [encodeHeader ⟨2, 1, 1, 4, 4, 0⟩ ++ [9, 9, 9, 9] ++ List.replicate 12 0,
             List.replicate 40 0, List.replicate 40 0] }

/-- C7 counterexample to the claim as stated: the committed size 29 differs
from `header.data_size + HEADER_SIZE = 28`, yet `read_image` returns
`Success` instead of `InvalidArguments`: the source only rejects committed
sizes strictly smaller than the sum. -/
theorem read_image_mismatch_counterexample :
    (imgCexMgr.buf 0).data_size = 29 ∧
    HEADER_SIZE + (decodeHeader (imgCexMgr.data.getD 0 [])).data_size = 28 ∧
    (read_image imgCexMgr 40).1 = ShmStatus.Success := by
  decide

theorem getD_set_self {α : Type _} :
    ∀ (l : List α) (n : Nat) (a d : α), n < l.length → (l.set n a).getD n d = a
  | [], n, a, d, h => by simp at h
  | b :: t, 0, a, d, _ => rfl
  | b :: t, n + 1, a, d, h => by
    simpa [List.getD] using getD_set_self t n a d (by simpa using h)

theorem getD_set_ne {α : Type _} :
    ∀ (l : List α) (n k : Nat) (a d : α), n ≠ k → (l.set n a).getD k d = l.getD k d
  | [], _, _, _, _, _ => rfl
  | b :: t, 0, 0, a, d, h => absurd rfl h
  | b :: t, 0, k + 1, a, d, _ => rfl
  | b :: t, n + 1, 0, a, d, _ => rfl
  | b :: t, n + 1, k + 1, a, d, h => by
    simpa [List.getD] using getD_set_ne t n k a d (by omega)

theorem getD_mem {α : Type _} :
    ∀ (l : List α) (n : Nat) (d : α), n < l.length → l.getD n d ∈ l
  | [], n, d, h => by simp at h
  | b :: t, 0, d, _ => List.mem_cons_self b t
  | b :: t, n + 1, d, h =>
    List.mem_cons_of_mem b (getD_mem t n d (by simpa using h))

theorem scanMin3_lt (b0 b1 b2 : BufCtrl) (mv : Nat) :
    scanMin [b0, b1, b2] 0 0 mv < 3 := by
  simp only [scanMin]
  split_ifs <;> norm_num

theorem read_after_strict_max (m : ShmManager) (j : Nat)
    (hinit : m.isInit = true) (hmap : m.mapped = true)
    (hlen : m.ctrl.length = NUM_BUFFERS) (hj : j < NUM_BUFFERS)
    (hready : (m.buf j).ready = true) (hpos : 0 < (m.buf j).frame_version)
    (hstrict : ∀ k, k < NUM_BUFFERS → k ≠ j →
      (m.buf k).frame_version < (m.buf j).frame_version) :
    (internal_acquire_read_buffer m).1 =
      some (j, (m.buf j).data_size, (m.buf j).frame_version) ∧
    (internal_acquire_read_buffer m).2.2.data = m.data := by
  obtain ⟨b0, b1, b2, hctrl⟩ := list_len3 m.ctrl hlen
  simp only [NUM_BUFFERS] at hj
  have hdisj : (b0.ready = true ∧ 0 < b0.frame_version) ∨
      (b1.ready = true ∧ 0 < b1.frame_version) ∨
      (b2.ready = true ∧ 0 < b2.frame_version) := by
    interval_cases j <;>
      simp [ShmManager.buf, hctrl, List.getD] at hready hpos <;>
      first
        | exact Or.inl ⟨hready, hpos⟩
        | exact Or.inr (Or.inl ⟨hready, hpos⟩)
        | exact Or.inr (Or.inr ⟨hready, hpos⟩)
  obtain ⟨j2, hscan, hmax⟩ := scanMax3_some b0 b1 b2 hdisj
  rw [← hctrl] at hscan hmax
  have hj2len : j2 < 3 := by
    have := hmax.1
    rw [hctrl] at this
    simpa using this
  have hje : j2 = j := by
    by_contra hne
    have hle : (m.buf j).frame_version ≤ (m.buf j2).frame_version := by
      have := hmax.2.2.2.1 j (by rw [hctrl]; simpa using hj) hready
      exact this
    have hlt : (m.buf j2).frame_version < (m.buf j).frame_version :=
      hstrict j2 (by simpa [NUM_BUFFERS] using hj2len) hne
    omega
  subst hje
  constructor
  · simp only [internal_acquire_read_buffer, hinit, hmap, hscan, Bool.and_true,
      Bool.not_eq_true, ite_true, ite_false, not_true, if_neg]
  · simp only [internal_acquire_read_buffer, hinit, hmap, hscan, Bool.and_true,
      Bool.not_eq_true, ite_true, ite_false, not_true, if_neg]

/-- C4 (amended): executed sequentially with no concurrent operations, for
every non-empty byte sequence `x` with `len x` not over the per-buffer
capacity and every version `v` strictly greater than every `frame_version`
currently stored in the region (hence positive), if
`write_and_switch(x, len x, v)` returns `Success` then a `try_read_latest`
with capacity at least `len x` returns `Success`, copies bytes equal to `x`
and reports `actual_size = len x`.  The strict-majority condition on `v` is
forced: with `v = 0` the write succeeds but the committed frame is
invisible to readers. -/
theorem write_read_roundtrip (m : ShmManager) (x : List Nat) (v cap : Nat)
    (hinit : m.isInit = true) (hmap : m.mapped = true)
    (hlen : m.ctrl.length = NUM_BUFFERS) (hdlen : m.data.length = NUM_BUFFERS)
    (hver : ∀ b ∈ m.ctrl, b.frame_version < v)
    (hx : x ≠ []) (hxle : x.length ≤ m.buffer_size) (hcap : x.length ≤ cap)
    (hsucc : (write_and_switch m x x.length v).1 = ShmStatus.Success) :
    (try_read_latest (write_and_switch m x x.length v).2 cap).1 = ShmStatus.Success ∧
    (try_read_latest (write_and_switch m x x.length v).2 cap).2.1 = x ∧
    (try_read_latest (write_and_switch m x x.length v).2 cap).2.2.1 = x.length := by
  have hxlen : x.length ≠ 0 := by simpa using hx
  set j := scanMin m.ctrl 0 0 UINT64_MAX with hj
  have hj3 : j < 3 := by
    obtain ⟨b0, b1, b2, hctrl⟩ := list_len3 m.ctrl hlen
    rw [hj, hctrl]
    exact scanMin3_lt b0 b1 b2 _
  have hjlen : j < m.ctrl.length := by rw [hlen]; exact hj3
  have hjdlen : j < m.data.length := by rw [hdlen]; exact hj3
  by_cases hrc0 : 0 < (m.buf j).reader_count
  · exfalso
    have hacq : internal_acquire_write_buffer m x.length = (none, m) := by
      simp [internal_acquire_write_buffer, hinit, hmap, not_lt.mpr hxle, ← hj, hrc0]
    simp [write_and_switch, hxlen, acquireWriteGuard, hacq] at hsucc
  · have hacq : internal_acquire_write_buffer m x.length =
        (some j, { m with ctrl := m.ctrl.set j ({ m.buf j with ready := false }) }) := by
      simp [internal_acquire_write_buffer, hinit, hmap, not_lt.mpr hxle, ← hj, hrc0]
    set m3 : ShmManager :=
      { m with
          ctrl := m.ctrl.set j ⟨v, x.length, true, (m.buf j).reader_count⟩,
          data := m.data.set j (x ++ (m.data.getD j []).drop x.length) } with hm3
    have hws : write_and_switch m x x.length v = (ShmStatus.Success, m3) := by
      rw [hm3]
      simp only [write_and_switch, acquireWriteGuard, hacq, if_neg hxlen,
        writeBytesAt, WriteBufferGuard.commit, internal_commit_write_buffer,
        dropWriteGuard]
      have hinit2 : (decide (m.state = ShmState.Created) ||
          decide (m.state = ShmState.Mapped)) = true := by
        simpa [ShmManager.isInit] using hinit
      simp [hinit2, hmap, ShmManager.isInit, ShmManager.buf, hjlen, hjdlen,
        getD_set_self, List.set_set, List.take_length,
        internal_release_write_buffer, NUM_BUFFERS, Nat.not_le.mpr hj3]
    have hvpos : 0 < v := by
      have := hver (m.buf j) (getD_mem m.ctrl j default hjlen)
      omega
    have hbufj : m3.buf j = ⟨v, x.length, true, (m.buf j).reader_count⟩ := by
      rw [hm3]
      simp only [ShmManager.buf]
      rw [getD_set_self m.ctrl j _ _ hjlen]
    have hready3 : (m3.buf j).ready = true := by rw [hbufj]
    have hpos3 : 0 < (m3.buf j).frame_version := by rw [hbufj]; exact hvpos
    have hstrict3 : ∀ k, k < NUM_BUFFERS → k ≠ j →
        (m3.buf k).frame_version < (m3.buf j).frame_version := by
      intro k hk hkj
      have hbufk : m3.buf k = m.buf k := by
        rw [hm3]
        simp only [ShmManager.buf]
        rw [getD_set_ne m.ctrl j k _ _ (fun he => hkj he.symm)]
      rw [hbufk, hbufj]
      refine hver (m.buf k) (getD_mem m.ctrl k default ?_)
      rw [hlen]
      exact hk
    have hread := read_after_strict_max m3 j
      (by rw [hm3]; simpa [ShmManager.isInit] using hinit)
      (by rw [hm3]; exact hmap)
      (by rw [hm3]; simpa using hlen)
      (by simpa [NUM_BUFFERS] using hj3)
      hready3 hpos3 hstrict3
    have hread1 : (internal_acquire_read_buffer m3).1 = some (j, x.length, v) := by
      have h0 := hread.1
      rw [hbufj] at h0
      exact h0
    have hbytes : (internal_acquire_read_buffer m3).2.2.data.getD j [] =
        x ++ (m.data.getD j []).drop x.length := by
      rw [hread.2, hm3]
      exact getD_set_self m.data j _ _ hjdlen
    have hcap0 : cap ≠ 0 := by omega
    rw [hws]
    simp only [try_read_latest, acquireReadGuard, hread1, hbytes, if_neg hcap0]
    simp [Nat.min_eq_right hcap, List.take_left]

/-- Witness for C4: the payload `[1, 2, 3]` written with version 5 into a
fresh `B = 8` region and read back through the facade. -/
theorem write_read_roundtrip_witness :
    (try_read_latest (write_and_switch (freshMgr 8) [1, 2, 3] ([1, 2, 3] : List Nat).length 5).2 8).1 = ShmStatus.Success ∧
    (try_read_latest (write_and_switch (freshMgr 8) [1, 2, 3] ([1, 2, 3] : List Nat).length 5).2 8).2.1 = [1, 2, 3] ∧
    (try_read_latest (write_and_switch (freshMgr 8) [1, 2, 3] ([1, 2, 3] : List Nat).length 5).2 8).2.2.1 = ([1, 2, 3] : List Nat).length :=
  write_read_roundtrip (freshMgr 8) [1, 2, 3] 5 8 (by decide) (by decide)
    (by decide) (by decide) (by decide) (by decide) (by decide) (by decide)
    (by decide)

/-- C4 counterexample to the claim as stated: on a fresh region,
`write_and_switch([1], 1, v = 0)` returns `Success`, yet the following
`try_read_latest` returns `NoDataAvailable` instead of the written bytes:
a frame committed with version 0 is never selected by the reader scan. -/
theorem roundtrip_version_zero_counterexample :
    (write_and_switch (freshMgr 8) [1] 1 0).1 = ShmStatus.Success ∧
    (try_read_latest (write_and_switch (freshMgr 8) [1] 1 0).2 8).1 =
      ShmStatus.NoDataAvailable := by
  decide

/-- The §3 data-model invariant on the control block: a ready buffer holds a
committed size within capacity and a positive version. -/
def CtrlInv (B : Nat) (bufs : List BufCtrl) : Prop :=
  ∀ b ∈ bufs, b.ready = true → b.data_size ≤ B ∧ 0 < b.frame_version

instance (B : Nat) (bufs : List BufCtrl) : Decidable (CtrlInv B bufs) :=
  List.decidableBAll _ bufs

/-- `true` unless the operation is a commit with `frame_version = 0`. -/
def SOp.versionPos : SOp → Bool
  | SOp.commitW _ _ ver => decide (0 < ver)
  | _ => true

/-- The induction invariant: fixed buffer capacity, control invariant, and
every live valid writer guard has capacity within `B`. -/
def GoodCfg (B : Nat) (c : TraceConfig) : Prop :=
  c.m.buffer_size = B ∧ CtrlInv B c.m.ctrl ∧
  ∀ g ∈ c.wgs, g.buffer ≠ none → g.capacity ≤ B

theorem getD_oob {α : Type _} :
    ∀ (l : List α) (n : Nat) (d : α), l.length ≤ n → l.getD n d = d
  | [], _, _, _ => rfl
  | _ :: _, 0, _, h => by simp at h
  | _ :: t, n + 1, d, h => by
    simpa [List.getD] using getD_oob t n d (by simpa using h)

theorem ctrlInv_set_not_ready (B : Nat) (bufs : List BufCtrl) (j : Nat)
    (b : BufCtrl) (hinv : CtrlInv B bufs) (hb : b.ready = false) :
    CtrlInv B (bufs.set j b) := by
  intro b2 hb2
  rcases List.mem_or_eq_of_mem_set hb2 with h | h
  · exact hinv b2 h
  · intro hr
    rw [h] at hr
    rw [hb] at hr
    cases hr

theorem ctrlInv_set_rc (B : Nat) (bufs : List BufCtrl) (j rc : Nat)
    (hinv : CtrlInv B bufs) :
    CtrlInv B (bufs.set j ({ bufs.getD j default with reader_count := rc })) := by
  intro b2 hb2
  rcases List.mem_or_eq_of_mem_set hb2 with h | h
  · exact hinv b2 h
  · subst h
    intro hr
    by_cases hj : j < bufs.length
    · exact hinv (bufs.getD j default) (getD_mem bufs j default hj) hr
    · rw [getD_oob bufs j default (le_of_not_lt hj)] at hr
      cases hr

theorem ctrlInv_set_commit (B : Nat) (bufs : List BufCtrl) (j a ver : Nat)
    (b : BufCtrl) (hinv : CtrlInv B bufs) (ha : a ≤ B) (hv : 0 < ver) :
    CtrlInv B (bufs.set j ({ b with data_size := a, frame_version := ver, ready := true })) := by
  intro b2 hb2
  rcases List.mem_or_eq_of_mem_set hb2 with h | h
  · exact hinv b2 h
  · subst h
    intro _
    exact ⟨ha, hv⟩

theorem acquireWriteGuard_snd (m : ShmManager) (e : Nat) :
    (acquireWriteGuard m e).2 = (internal_acquire_write_buffer m e).2 := by
  unfold acquireWriteGuard
  cases h : (internal_acquire_write_buffer m e).1 <;> simp [h]

theorem acquireWriteGuard_fields (m : ShmManager) (e : Nat) :
    (acquireWriteGuard m e).1.capacity = e ∧
    (acquireWriteGuard m e).1.buffer = (internal_acquire_write_buffer m e).1 := by
  unfold acquireWriteGuard
  cases h : (internal_acquire_write_buffer m e).1 <;> simp [h]

theorem acquireReadGuard_snd (m : ShmManager) :
    (acquireReadGuard m).2 = (internal_acquire_read_buffer m).2.2 := by
  unfold acquireReadGuard
  cases h : (internal_acquire_read_buffer m).1 with
  | none => simp [h]
  | some p =>
    rcases p with ⟨i, sz, fv⟩
    simp [h]

theorem acquire_write_fields (m : ShmManager) (e : Nat) :
    (internal_acquire_write_buffer m e).2.buffer_size = m.buffer_size ∧
    ((internal_acquire_write_buffer m e).1 ≠ none → e ≤ m.buffer_size) := by
  simp only [internal_acquire_write_buffer]
  split_ifs <;> simp_all

theorem acquire_write_inv (B : Nat) (m : ShmManager) (e : Nat)
    (hinv : CtrlInv B m.ctrl) :
    CtrlInv B (internal_acquire_write_buffer m e).2.ctrl := by
  simp only [internal_acquire_write_buffer]
  split_ifs <;>
    first
      | exact hinv
      | (refine ctrlInv_set_not_ready B m.ctrl _ _ hinv ?_; rfl)

theorem acquire_read_inv (B : Nat) (m : ShmManager) (hinv : CtrlInv B m.ctrl) :
    (internal_acquire_read_buffer m).2.2.buffer_size = m.buffer_size ∧
    CtrlInv B (internal_acquire_read_buffer m).2.2.ctrl := by
  simp only [internal_acquire_read_buffer]
  split_ifs <;> refine ⟨rfl, ?_⟩ <;>
    first
      | exact hinv
      | exact ctrlInv_set_rc B m.ctrl _ _ hinv

theorem release_read_inv (B : Nat) (m : ShmManager) (j : Nat)
    (hinv : CtrlInv B m.ctrl) :
    (internal_release_read_buffer m j).buffer_size = m.buffer_size ∧
    CtrlInv B (internal_release_read_buffer m j).ctrl := by
  simp only [internal_release_read_buffer]
  split_ifs <;> refine ⟨rfl, ?_⟩ <;>
    first
      | exact hinv
      | exact ctrlInv_set_rc B m.ctrl _ _ hinv

theorem dropWriteGuard_eq (g : WriteBufferGuard) (m : ShmManager) :
    dropWriteGuard g m = m := by
  simp only [dropWriteGuard, internal_release_write_buffer]
  split_ifs <;> rfl

theorem dropReadGuard_inv (B : Nat) (g : ReadBufferGuard) (m : ShmManager)
    (hinv : CtrlInv B m.ctrl) :
    (dropReadGuard g m).buffer_size = m.buffer_size ∧
    CtrlInv B (dropReadGuard g m).ctrl := by
  simp only [dropReadGuard]
  split_ifs with h
  · exact release_read_inv B m g.buffer_idx hinv
  · exact ⟨rfl, hinv⟩

theorem commit_step_inv (B : Nat) (m : ShmManager) (g : WriteBufferGuard)
    (a ver : Nat) (hB : m.buffer_size = B) (hinv : CtrlInv B m.ctrl)
    (hcap : g.buffer ≠ none → g.capacity ≤ B) (hv : 0 < ver) :
    (g.commit m a ver).2.2.buffer_size = B ∧
    CtrlInv B (g.commit m a ver).2.2.ctrl ∧
    (g.commit m a ver).2.1.capacity = g.capacity ∧
    (g.commit m a ver).2.1.buffer = g.buffer := by
  simp only [WriteBufferGuard.commit, internal_commit_write_buffer]
  split_ifs with h1 h2 h3 h4 h5 <;>
    refine ⟨hB, ?_, rfl, rfl⟩ <;>
    first
      | exact hinv
      | (refine ctrlInv_set_commit B m.ctrl _ a ver _ hinv ?_ hv
         have hbn : g.buffer ≠ none := by
           intro hb
           simp [hb] at h1
         exact le_trans (not_lt.mp h2) (hcap hbn))

theorem execOp_good (B : Nat) (c : TraceConfig) (op : SOp)
    (hg : GoodCfg B c) (hop : op.versionPos = true) :
    GoodCfg B (execOp c op) := by
  obtain ⟨hB, hinv, hw⟩ := hg
  rcases op with e | ⟨gi, a, ver⟩ | gi | _ | gi
  · -- acqW
    refine ⟨?_, ?_, ?_⟩
    · simp only [execOp, acquireWriteGuard_snd]
      rw [(acquire_write_fields c.m e).1, hB]
    · simp only [execOp, acquireWriteGuard_snd]
      exact acquire_write_inv B c.m e hinv
    · intro g hgm hgb
      simp only [execOp] at hgm hgb ⊢
      rcases List.mem_append.mp hgm with h | h
      · exact hw g h hgb
      · have hge : g = (acquireWriteGuard c.m e).1 := by simpa using h
        subst hge
        rw [(acquireWriteGuard_fields c.m e).1]
        rw [(acquireWriteGuard_fields c.m e).2] at hgb
        rw [← hB]
        exact (acquire_write_fields c.m e).2 hgb
  · -- commitW
    cases hget : c.wgs.get? gi with
    | none => exact ⟨by simp only [execOp, hget]; exact hB,
        by simp only [execOp, hget]; exact hinv,
        by simp only [execOp, hget]; exact hw⟩
    | some g =>
      have hgm : g ∈ c.wgs := List.get?_mem hget
      have hv : 0 < ver := by simpa [SOp.versionPos] using hop
      have hc := commit_step_inv B c.m g a ver hB hinv (hw g hgm) hv
      refine ⟨?_, ?_, ?_⟩
      · simp only [execOp, hget]
        exact hc.1
      · simp only [execOp, hget]
        exact hc.2.1
      · intro g2 hg2 hg2b
        simp only [execOp, hget] at hg2 hg2b ⊢
        rcases List.mem_or_eq_of_mem_set hg2 with h | h
        · exact hw g2 h hg2b
        · subst h
          rw [hc.2.2.1]
          rw [hc.2.2.2] at hg2b
          exact hw g hgm hg2b
  · -- dropW
    cases hget : c.wgs.get? gi with
    | none => exact ⟨by simp only [execOp, hget]; exact hB,
        by simp only [execOp, hget]; exact hinv,
        by simp only [execOp, hget]; exact hw⟩
    | some g =>
      refine ⟨?_, ?_, ?_⟩
      · simp only [execOp, hget, dropWriteGuard_eq]
        exact hB
      · simp only [execOp, hget, dropWriteGuard_eq]
        exact hinv
      · intro g2 hg2 hg2b
        simp only [execOp, hget] at hg2 hg2b ⊢
        exact hw g2 ((List.eraseIdx_sublist c.wgs gi).subset hg2) hg2b
  · -- acqR
    refine ⟨?_, ?_, ?_⟩
    · simp only [execOp, acquireReadGuard_snd]
      rw [(acquire_read_inv B c.m hinv).1, hB]
    · simp only [execOp, acquireReadGuard_snd]
      exact (acquire_read_inv B c.m hinv).2
    · intro g hgm hgb
      simp only [execOp] at hgm hgb ⊢
      exact hw g hgm hgb
  · -- dropR
    cases hget : c.rgs.get? gi with
    | none => exact ⟨by simp only [execOp, hget]; exact hB,
        by simp only [execOp, hget]; exact hinv,
        by simp only [execOp, hget]; exact hw⟩
    | some g =>
      refine ⟨?_, ?_, ?_⟩
      · simp only [execOp, hget]
        rw [(dropReadGuard_inv B g c.m hinv).1, hB]
      · simp only [execOp, hget]
        exact (dropReadGuard_inv B g c.m hinv).2
      · intro g2 hg2 hg2b
        simp only [execOp, hget] at hg2 hg2b ⊢
        exact hw g2 hg2 hg2b

theorem execTrace_good (B : Nat) :
    ∀ (tr : List SOp) (c : TraceConfig), GoodCfg B c →
      (∀ op ∈ tr, op.versionPos = true) → GoodCfg B (execTrace c tr)
  | [], c, hc, _ => hc
  | op :: rest, c, hc, hpos =>
    execTrace_good B rest (execOp c op)
      (execOp_good B c op hc (hpos op (List.mem_cons_self op rest)))
      (fun o ho => hpos o (List.mem_cons_of_mem op ho))

/-- C5 (amended): starting from the freshly initialized header and running
any sequence of guard-level operations in which every commit supplies a
positive `frame_version`, the state invariant holds: whenever
`ready[i] = true` then `data_size[i] ≤ B` and `frame_version[i] > 0`.  The
positivity proviso is forced: the source stores the caller version
unmodified, so a commit with version 0 produces a ready buffer with
`frame_version = 0`. -/
theorem freshCtrlInv (B : Nat) : CtrlInv B (freshMgr B).ctrl := by
  intro b hb
  rw [List.eq_of_mem_replicate hb]
  intro h
  cases h

theorem state_invariant_preserved (B : Nat) (tr : List SOp)
    (hpos : ∀ op ∈ tr, op.versionPos = true) :
    CtrlInv B (execTrace (freshConfig B) tr).m.ctrl :=
  (execTrace_good B tr (freshConfig B)
    ⟨rfl, freshCtrlInv B, fun g hg => absurd hg (List.not_mem_nil g)⟩
    hpos).2.1

/-- Witness for C5: a four-step trace (acquire, commit version 5, reader
acquire, reader release) on a fresh `B = 4` region. -/
theorem state_invariant_preserved_witness :
    CtrlInv 4 (execTrace (freshConfig 4)
      [SOp.acqW 2, SOp.commitW 0 2 5, SOp.acqR, SOp.dropR 0]).m.ctrl :=
  state_invariant_preserved 4
    [SOp.acqW 2, SOp.commitW 0 2 5, SOp.acqR, SOp.dropR 0] (by decide)

/-- C5 counterexample to the claim as stated: the two-step trace that
acquires a writer guard and commits with `frame_version = 0` ends with
buffer 0 ready and version 0, violating `ready ⇒ frame_version > 0`. -/
theorem state_invariant_version_zero_counterexample :
    ((execTrace (freshConfig 4) [SOp.acqW 0, SOp.commitW 0 0 0]).m.buf 0).ready = true ∧
    ((execTrace (freshConfig 4) [SOp.acqW 0, SOp.commitW 0 0 0]).m.buf 0).frame_version = 0 := by
  decide
